import Mathlib

/-!
Verification development for the rate-limiter core of the yToolkit repository.

The definitions below are a shallow embedding of the `ApiCallLimiter` class of
`src/api/call-deduplicator.ts` (the richest variant of the admission-control
primitive) together with the constructor of the `CallLimiter` variant
(`src/unnamed/part_004`).  Timestamps and counts are natural numbers; the JS
comparisons `x < now - 1000` coincide with the Nat versions because all
timestamps are non-negative, and `Math.max(0, a - b)` on non-negative integers
is Nat subtraction.  The promise of each `requestSlot` caller is modelled by an
event trace: the first `resolve`/`reject` event for a request id settles its
promise, later settlement attempts are no-ops, exactly as for JS promises.

The scheduling loop `processQueue` of the source is an async function that runs
synchronously from its call site until it either exits (all lanes empty) or
suspends at `await new Promise(resolve => setTimeout(resolve, 50))`.  One such
synchronous burst is `processQueueLoop` below; the fuel `totalWaiting s + 1` is
exact, because every non-terminal iteration of the source's while-loop dequeues
at least one waiting request.  Crucially, the insertion of the `RunningRequest`
into `requestsRunning` is performed by the granted caller *after* its `await`
resumes (a microtask), never inside the synchronous burst; the burst therefore
observes a running set that does not yet contain the requests it has just
granted.  That deferral is modelled by keeping the insertion as the separate
step `grantContinuation`.
-/

namespace YToolkit

/-- Settlement status of the promise created by one `requestSlot` call. -/
inductive PStatus where
  | pending
  | granted
  | rejected
deriving DecidableEq

/-- A settlement attempt on a waiting request's promise: `resolve` is issued by
the scheduler when it grants the request, `reject` by the request's timeout
timer. -/
inductive Event where
  | resolve (id : Nat)
  | reject (id : Nat)
deriving DecidableEq

/-- JS promise semantics: the first `resolve`/`reject` for a given promise wins
and later settlement attempts are ignored. -/
def firstSettle : List Event → Nat → PStatus
  | [], _ => .pending
  | Event.resolve i :: rest, id => if i = id then .granted else firstSettle rest id
  | Event.reject i :: rest, id => if i = id then .rejected else firstSettle rest id

/-- One entry of `requestsRunning` (`ApiCallLimiter.RequestRunning`): the
timestamps of the grant and of the release.  `rid` models the identity of the
JS object captured by the release closure (the source stores plain objects in a
`Set`; the closure mutates its own object). -/
structure RunningReq where
  rid : Nat
  startedAt : Nat
  endedAt : Option Nat
deriving DecidableEq

/-- The cleanup predicate of `getAvailableSlots` (call-deduplicator.ts lines
346-363): an entry is removed when its `endedAt` is truthy and older than one
second, or when its `startedAt` is truthy and older than 65 seconds (the stuck
threshold).  JS truthiness of the number 0 is modelled explicitly. -/
def shouldPrune (now : Nat) (r : RunningReq) : Bool :=
  (match r.endedAt with
    | some e => decide (e ≠ 0) && decide (e < now - 1000)
    | none => false)
  || (decide (r.startedAt ≠ 0) && decide (r.startedAt < now - 65000))

/-- The in-place cleanup of the running set performed by `getAvailableSlots`. -/
def pruneRunning (now : Nat) (l : List RunningReq) : List RunningReq :=
  l.filter (fun r => ! shouldPrune now r)

/-- State of one `ApiCallLimiter` instance: the rate-configuration fields, the
three priority lanes (holding the ids of the waiting requests), the running
set, the processing flag, and the settlement-event trace of all promises. -/
structure LState where
  maxRequestsPerSecond : Nat
  reductionNumber : Nat
  requestsPerSecond : Nat
  reduceLimitTimestamp : Nat
  reduceTimerActive : Bool
  requestsHigh : List Nat
  requestsNormal : List Nat
  requestsLow : List Nat
  requestsRunning : List RunningReq
  isProcessing : Bool
  events : List Event
deriving DecidableEq

/-- State produced by the constructor (lines 192-203) on a valid argument:
`reductionNumber = Math.max(1, Math.floor(requestsPerSecond / 10))`, current
rate starts at the maximum, queues empty. -/
def initState (n : Nat) : LState :=
  { maxRequestsPerSecond := n
    reductionNumber := max 1 (n / 10)
    requestsPerSecond := n
    reduceLimitTimestamp := 0
    reduceTimerActive := false
    requestsHigh := []
    requestsNormal := []
    requestsLow := []
    requestsRunning := []
    isProcessing := false
    events := [] }

/-- The constructor of `ApiCallLimiter` including its validation: it throws
when `options.requestsPerSecond <= 0`. -/
def ApiCallLimiter.construct (requestsPerSecond : Int) : Except String LState :=
  if requestsPerSecond ≤ 0 then .error "requestsPerSecond must be > 0"
  else .ok (initState requestsPerSecond.toNat)

/-- Number of waiting requests over all three lanes (the emptiness test of
`processQueue`, line 294, and the while-loop condition, line 308). -/
def totalWaiting (s : LState) : Nat :=
  s.requestsHigh.length + s.requestsNormal.length + s.requestsLow.length

/-- The available-slot computation of `getAvailableSlots` (line 366-367):
prune, then `Math.max(0, requestsPerSecond - size)`; returns the count together
with the state whose running set has been cleaned up. -/
def getAvailableSlots (now : Nat) (s : LState) : Nat × LState :=
  let running' := pruneRunning now s.requestsRunning
  (s.requestsPerSecond - running'.length, { s with requestsRunning := running' })

/-- The priority-ordered dequeue of line 322:
`requestsHigh.shift() || requestsNormal.shift() || requestsLow.shift()`.
Returns the dequeued id together with the three lanes after the shift, or
`none` when all lanes are empty. -/
def dequeueNext (h n l : List Nat) : Option (Nat × List Nat × List Nat × List Nat) :=
  match h with
  | id :: t => some (id, t, n, l)
  | [] =>
    match n with
    | id :: t => some (id, [], t, l)
    | [] =>
      match l with
      | id :: t => some (id, [], [], t)
      | [] => none

/-- The inner for-loop of `processQueue` (lines 320-329): dequeue and resolve
up to `k` waiting requests, stopping early when all lanes are empty.  Resolving
appends a `resolve` event to the trace; the running set is *not* touched here
(the source inserts the `RunningRequest` in the granted caller's continuation). -/
def grantLoop : Nat → LState → LState
  | 0, s => s
  | k + 1, s =>
    match dequeueNext s.requestsHigh s.requestsNormal s.requestsLow with
    | none => s
    | some (id, h, n, l) =>
      grantLoop k { s with
        requestsHigh := h
        requestsNormal := n
        requestsLow := l
        events := s.events ++ [Event.resolve id] }

/-- One synchronous burst of the while-loop of `processQueue` (lines 308-330):
while some lane is non-empty, recompute the available slots (pruning the
running set) and either suspend at the 50ms sleep (`availableSlots === 0`,
modelled by returning with `isProcessing` still set) or grant a batch.  When
the lanes drain, the `finally` clause clears `isProcessing`.  `fuel` bounds the
number of iterations; `totalWaiting s + 1` is always sufficient because every
non-terminal iteration grants at least one request. -/
def processQueueLoop : Nat → Nat → LState → LState
  | 0, _, s => s
  | fuel + 1, now, s =>
    if totalWaiting s = 0 then { s with isProcessing := false }
    else
      if (getAvailableSlots now s).1 = 0 then (getAvailableSlots now s).2
      else processQueueLoop fuel now (grantLoop (getAvailableSlots now s).1 (getAvailableSlots now s).2)

/-- The guarded entry of `processQueue` (lines 292-305): return when all lanes
are empty, return when a loop is already active, otherwise set the flag and run
the loop. -/
def processQueue (now : Nat) (s : LState) : LState :=
  if totalWaiting s = 0 then s
  else if s.isProcessing then s
  else processQueueLoop (totalWaiting s + 1) now { s with isProcessing := true }

/-- Resumption of a suspended loop: the continuation of the 50ms sleep (or the
`setImmediate` self-restart while the flag is still set) re-enters the
while-loop. -/
def wakeLoop (now : Nat) (s : LState) : LState :=
  if s.isProcessing then processQueueLoop (totalWaiting s + 1) now s else s

/-- Effective priority of a `requestSlot` call, line 248:
`options.priority || 'normal'`.  The only falsy string is the empty string; an
absent priority is `none`. -/
def effectivePriority (o : Option String) : String :=
  match o with
  | none => "normal"
  | some s => if s = "" then "normal" else s

/-- The enqueue dispatch of `requestSlot` (lines 254-261): `'high'` and
`'normal'` push onto their lanes, every other effective priority falls into the
`else` branch and is pushed onto the low lane.  No validation is performed and
nothing is thrown. -/
def enqueueByPriority (o : Option String) (id : Nat) (s : LState) : LState :=
  if effectivePriority o = "high" then { s with requestsHigh := s.requestsHigh ++ [id] }
  else if effectivePriority o = "normal" then { s with requestsNormal := s.requestsNormal ++ [id] }
  else { s with requestsLow := s.requestsLow ++ [id] }

/-- The synchronous part of `requestSlot` (lines 247-267): enqueue the request
and call `processQueue`.  (Setting the timeout timer does not change limiter
state; the timer firing is the separate step `fireTimeout`.) -/
def requestSlotSync (o : Option String) (id now : Nat) (s : LState) : LState :=
  processQueue now (enqueueByPriority o id s)

/-- Synchronous outcome of a `requestSlot` call.  The source performs no
argument validation and contains no synchronous throw in `requestSlot`
(lines 247-267): every call, whatever the priority value, proceeds to enqueue,
so the synchronous outcome is always a success carrying the new state. -/
def requestSlotSyncResult (o : Option String) (id now : Nat) (s : LState) :
    Except String LState :=
  .ok (requestSlotSync o id now s)

/-- The continuation of a granted caller after its `await` resumes (lines
276-277): create the `RunningRequest` with `startedAt = Date.now()`,
`endedAt = null`, and add it to the running set.  This runs as a microtask,
strictly after the synchronous burst that issued the grant. -/
def grantContinuation (rid now : Nat) (s : LState) : LState :=
  { s with requestsRunning := s.requestsRunning ++ [⟨rid, now, none⟩] }

/-- The timeout timer of a `requestSlot` call firing (lines 265-267): it only
rejects the promise.  The waiting entry is NOT removed from its lane. -/
def fireTimeout (id : Nat) (s : LState) : LState :=
  { s with events := s.events ++ [Event.reject id] }

/-- The release callback returned by `requestSlot` (lines 279-282): it sets
`endedAt = Date.now()` on its captured `RunningRequest` object,
unconditionally, every time it is invoked.  If the entry has already been
pruned from the set the mutation is invisible to the limiter. -/
def releaseSlot (rid now : Nat) (s : LState) : LState :=
  { s with requestsRunning :=
      s.requestsRunning.map (fun r =>
        if r.rid = rid then { r with endedAt := some now } else r) }

/-- `reduceLimitTemporary` (lines 211-237): validate the duration, skip when a
reduction happened within the last 1000ms (debounce), otherwise record the
timestamp, replace the restoration timer, and clamp the reduced rate at 1. -/
def reduceLimitTemporary (now : Nat) (durationMs : Int) (s : LState) :
    Except String LState :=
  if durationMs ≤ 0 then .error "durationMs must be > 0"
  else if now - s.reduceLimitTimestamp < 1000 then .ok s
  else .ok { s with
    reduceLimitTimestamp := now
    reduceTimerActive := true
    requestsPerSecond := max 1 (s.requestsPerSecond - s.reductionNumber) }

/-- The restoration timer scheduled by `reduceLimitTemporary` firing (lines
229-232): the rate is set back to the configured maximum and the timer slot is
cleared. -/
def restoreLimit (s : LState) : LState :=
  { s with requestsPerSecond := s.maxRequestsPerSecond, reduceTimerActive := false }

/-- One externally observable step of the limiter's cooperative execution:
an effective or throwing `reduceLimitTemporary` call (a throw leaves the state
unchanged), the restoration timer firing, the synchronous part of a
`requestSlot` call, a granted caller's continuation, a request timeout firing,
a release-callback invocation, the sleeping loop waking, or the `setImmediate`
re-entry of `processQueue`. -/
inductive Step where
  | reduce (now : Nat) (durationMs : Int)
  | restore
  | call (o : Option String) (id : Nat) (now : Nat)
  | resumeGranted (rid : Nat) (now : Nat)
  | timeout (id : Nat)
  | releaseCall (rid : Nat) (now : Nat)
  | wake (now : Nat)
  | poke (now : Nat)

/-- Interpretation of a single step on the limiter state. -/
def execStep : Step → LState → LState
  | .reduce now d, s =>
    match reduceLimitTemporary now d s with
    | .ok s' => s'
    | .error _ => s
  | .restore, s => restoreLimit s
  | .call o id now, s => requestSlotSync o id now s
  | .resumeGranted rid now, s => grantContinuation rid now s
  | .timeout id, s => fireTimeout id s
  | .releaseCall rid now, s => releaseSlot rid now s
  | .wake now, s => wakeLoop now s
  | .poke now, s => processQueue now s

/-- Interpretation of a sequence of steps, oldest first. -/
def execSteps (l : List Step) (s : LState) : LState :=
  l.foldl (fun s st => execStep st s) s

/-- State of the `CallLimiter` variant of `src/unnamed/part_004` relevant to
its constructor (lines 45-56). -/
structure CallLimiterState where
  maxRequestsPerSecond : Nat
  reductionNumber : Nat
  requestsPerSecond : Nat
deriving DecidableEq

/-- Round-half-to-even integer division: `divRound n d` is the integer nearest
to `n / d`, ties going to the even candidate.  Applied to a scaled significand
this is exactly the tie-breaking rule of IEEE-754 round-to-nearest-even, the
rounding mode of every JS number operation. -/
def divRound (n d : Nat) : Nat :=
  if 2 * (n % d) < d then n / d
  else if d < 2 * (n % d) then n / d + 1
  else if n / d % 2 = 0 then n / d else n / d + 1

/-- Bit length with explicit fuel (structural recursion so that proofs can
evaluate it): `bitLenAux fuel n = ⌊log2 n⌋ + 1` for `1 ≤ n < 2^fuel`, and 0
for `n = 0`. -/
def bitLenAux : Nat → Nat → Nat
  | 0, _ => 0
  | fuel + 1, n => if n = 0 then 0 else bitLenAux fuel (n / 2) + 1

/-- Bit length of a natural number, exact for every `n < 2^128` — far beyond
every value arising from the claims' domain (`p ≤ 100` and integral rates,
which JS numbers can hold exactly only below `2^53`). -/
def bitLen (n : Nat) : Nat := bitLenAux 128 n

/-- Binary64 exponent for the quotient `p / 100` (meaningful for
`1 ≤ p ≤ 100`): the unique `t` with `2^52 ≤ p * 2^t / 100 < 2^53`.  Writing
`j = ⌊log2 p⌋ = bitLen p - 1`, the candidate `t = 59 - j = 60 - bitLen p`
always satisfies the lower bound (`p * 2^(59-j) ≥ 2^(j+59-j) = 2^59 >
100 * 2^52`); if it violates the upper bound, the definition falls back to
`t = 58 - j`, whose upper bound always holds (`p * 2^(58-j) < 2^(j+1+58-j) =
2^59 < 100 * 2^53`) and whose lower bound is exactly the failed test. -/
def fl100Exp (p : Nat) : Nat :=
  if p * 2 ^ (60 - bitLen p) < 100 * 2 ^ 53 then 60 - bitLen p else 59 - bitLen p

/-- 53-bit significand of the correctly rounded binary64 quotient `p / 100`:
the double computed by the JS expression `reductionPercentage / 100` is
`fl100Sig p / 2^(fl100Exp p)`.  A rounding carry up to `2^53` still denotes
the exact IEEE result (the next binade). -/
def fl100Sig (p : Nat) : Nat := divRound (p * 2 ^ fl100Exp p) 100

/-- Shift that brings the integer `m * fl100Sig p` back to at most 53
significant bits, as the binary64 multiplication `m * (p/100)` must. -/
def prodShift (m p : Nat) : Nat := bitLen (m * fl100Sig p) - 53

/-- The JS computation `Math.floor(m * (p / 100))` of part_004 line 52 under
binary64 semantics: round `p / 100` to the nearest double, multiply by the
exactly representable integer `m` with correct rounding to 53 significant
bits, and take the exact floor.  All values stay in the normal range for
`1 ≤ p ≤ 100` and `1 ≤ m < 2^53` (no overflow, no subnormals).  The float
rounding is observable: `jsFloorMulDiv 100 29 = 28` (JS:
`Math.floor(100 * 0.29) === 28` because the double nearest 29/100 is slightly
below it), while exact integer arithmetic gives `100 * 29 / 100 = 29`. -/
def jsFloorMulDiv (m p : Nat) : Nat :=
  if p = 0 then 0
  else divRound (m * fl100Sig p) (2 ^ prodShift m p) * 2 ^ prodShift m p / 2 ^ fl100Exp p

/-- The `CallLimiter` constructor (part_004 lines 45-56): validation, then
`reductionNumber = Math.floor(maxRequestsPerSecond * (reductionPercentage / 100))`
— a JS float computation, modelled bit-exactly by `jsFloorMulDiv`; note: no
`Math.max(1, ...)` floor. -/
def CallLimiter.construct (maxRequestsPerSecond : Int) (reductionPercentage : Nat) :
    Except String CallLimiterState :=
  if maxRequestsPerSecond ≤ 0 then .error "maxRequestsPerSecond must be > 0"
  else
    .ok { maxRequestsPerSecond := maxRequestsPerSecond.toNat
          reductionNumber := jsFloorMulDiv maxRequestsPerSecond.toNat reductionPercentage
          requestsPerSecond := maxRequestsPerSecond.toNat }

/-! Helper lemmas about the embedding. -/

theorem execSteps_nil (s : LState) : execSteps [] s = s := rfl

theorem execSteps_cons (st : Step) (l : List Step) (s : LState) :
    execSteps (st :: l) s = execSteps l (execStep st s) := rfl

@[simp] theorem getAvailableSlots_snd_events (now : Nat) (s : LState) :
    ((getAvailableSlots now s).2).events = s.events := rfl

@[simp] theorem getAvailableSlots_snd_rate (now : Nat) (s : LState) :
    ((getAvailableSlots now s).2).requestsPerSecond = s.requestsPerSecond := rfl

@[simp] theorem getAvailableSlots_snd_max (now : Nat) (s : LState) :
    ((getAvailableSlots now s).2).maxRequestsPerSecond = s.maxRequestsPerSecond := rfl

theorem firstSettle_append_of_pending (a b : List Event) (id : Nat)
    (h : firstSettle a id = .pending) :
    firstSettle (a ++ b) id = firstSettle b id := by
  induction a with
  | nil => rfl
  | cons e rest ih =>
    cases e with
    | resolve i =>
      simp only [List.cons_append, firstSettle] at h ⊢
      by_cases hi : i = id
      · simp [hi] at h
      · simp only [if_neg hi] at h ⊢
        exact ih h
    | reject i =>
      simp only [List.cons_append, firstSettle] at h ⊢
      by_cases hi : i = id
      · simp [hi] at h
      · simp only [if_neg hi] at h ⊢
        exact ih h

theorem firstSettle_append_of_ne (a b : List Event) (id : Nat)
    (h : firstSettle a id ≠ .pending) :
    firstSettle (a ++ b) id = firstSettle a id := by
  induction a with
  | nil => exact absurd rfl h
  | cons e rest ih =>
    cases e with
    | resolve i =>
      simp only [List.cons_append, firstSettle] at h ⊢
      by_cases hi : i = id
      · simp [hi]
      · simp only [if_neg hi] at h ⊢
        exact ih h
    | reject i =>
      simp only [List.cons_append, firstSettle] at h ⊢
      by_cases hi : i = id
      · simp [hi]
      · simp only [if_neg hi] at h ⊢
        exact ih h

theorem enqueueByPriority_events (o : Option String) (id : Nat) (s : LState) :
    (enqueueByPriority o id s).events = s.events := by
  unfold enqueueByPriority
  split
  · rfl
  · split
    · rfl
    · rfl

theorem enqueueByPriority_config (o : Option String) (id : Nat) (s : LState) :
    (enqueueByPriority o id s).requestsPerSecond = s.requestsPerSecond ∧
    (enqueueByPriority o id s).maxRequestsPerSecond = s.maxRequestsPerSecond := by
  unfold enqueueByPriority
  split
  · exact ⟨rfl, rfl⟩
  · split
    · exact ⟨rfl, rfl⟩
    · exact ⟨rfl, rfl⟩

theorem grantLoop_succ_none (k : Nat) (s : LState)
    (h : dequeueNext s.requestsHigh s.requestsNormal s.requestsLow = none) :
    grantLoop (k + 1) s = s := by
  unfold grantLoop
  rw [h]

theorem grantLoop_succ_some (k : Nat) (s : LState) (id : Nat) (hh nn ll : List Nat)
    (h : dequeueNext s.requestsHigh s.requestsNormal s.requestsLow = some (id, hh, nn, ll)) :
    grantLoop (k + 1) s =
      grantLoop k { s with
        requestsHigh := hh
        requestsNormal := nn
        requestsLow := ll
        events := s.events ++ [Event.resolve id] } := by
  conv_lhs => rw [grantLoop]
  rw [h]

theorem grantLoop_events_extend : ∀ (k : Nat) (s : LState),
    ∃ t, (grantLoop k s).events = s.events ++ t := by
  intro k
  induction k with
  | zero => intro s; exact ⟨[], by simp [grantLoop]⟩
  | succ k ih =>
    intro s
    cases hd : dequeueNext s.requestsHigh s.requestsNormal s.requestsLow with
    | none => exact ⟨[], by rw [grantLoop_succ_none k s hd]; simp⟩
    | some r =>
      obtain ⟨id, hh, nn, ll⟩ := r
      obtain ⟨t, ht⟩ := ih { s with
        requestsHigh := hh
        requestsNormal := nn
        requestsLow := ll
        events := s.events ++ [Event.resolve id] }
      refine ⟨Event.resolve id :: t, ?_⟩
      rw [grantLoop_succ_some k s id hh nn ll hd, ht]
      simp

theorem grantLoop_config : ∀ (k : Nat) (s : LState),
    (grantLoop k s).requestsPerSecond = s.requestsPerSecond ∧
    (grantLoop k s).maxRequestsPerSecond = s.maxRequestsPerSecond := by
  intro k
  induction k with
  | zero => intro s; exact ⟨rfl, rfl⟩
  | succ k ih =>
    intro s
    cases hd : dequeueNext s.requestsHigh s.requestsNormal s.requestsLow with
    | none => rw [grantLoop_succ_none k s hd]; exact ⟨rfl, rfl⟩
    | some r =>
      obtain ⟨id, hh, nn, ll⟩ := r
      rw [grantLoop_succ_some k s id hh nn ll hd]
      exact ih _

theorem processQueueLoop_events_extend : ∀ (fuel now : Nat) (s : LState),
    ∃ t, (processQueueLoop fuel now s).events = s.events ++ t := by
  intro fuel
  induction fuel with
  | zero => intro now s; exact ⟨[], by simp [processQueueLoop]⟩
  | succ fuel ih =>
    intro now s
    unfold processQueueLoop
    split
    · exact ⟨[], by simp⟩
    · split
      · exact ⟨[], by simp⟩
      · obtain ⟨t1, ht1⟩ := grantLoop_events_extend (getAvailableSlots now s).1 (getAvailableSlots now s).2
        obtain ⟨t2, ht2⟩ := ih now (grantLoop (getAvailableSlots now s).1 (getAvailableSlots now s).2)
        refine ⟨t1 ++ t2, ?_⟩
        rw [ht2, ht1]
        simp

theorem processQueueLoop_config : ∀ (fuel now : Nat) (s : LState),
    (processQueueLoop fuel now s).requestsPerSecond = s.requestsPerSecond ∧
    (processQueueLoop fuel now s).maxRequestsPerSecond = s.maxRequestsPerSecond := by
  intro fuel
  induction fuel with
  | zero => intro now s; exact ⟨rfl, rfl⟩
  | succ fuel ih =>
    intro now s
    unfold processQueueLoop
    split
    · exact ⟨rfl, rfl⟩
    · split
      · exact ⟨rfl, rfl⟩
      · obtain ⟨a, b⟩ := ih now (grantLoop (getAvailableSlots now s).1 (getAvailableSlots now s).2)
        obtain ⟨c, d⟩ := grantLoop_config (getAvailableSlots now s).1 (getAvailableSlots now s).2
        exact ⟨a.trans (c.trans (getAvailableSlots_snd_rate now s)),
               b.trans (d.trans (getAvailableSlots_snd_max now s))⟩

theorem processQueue_events_extend (now : Nat) (s : LState) :
    ∃ t, (processQueue now s).events = s.events ++ t := by
  unfold processQueue
  split
  · exact ⟨[], by simp⟩
  · split
    · exact ⟨[], by simp⟩
    · exact processQueueLoop_events_extend (totalWaiting s + 1) now { s with isProcessing := true }

theorem processQueue_config (now : Nat) (s : LState) :
    (processQueue now s).requestsPerSecond = s.requestsPerSecond ∧
    (processQueue now s).maxRequestsPerSecond = s.maxRequestsPerSecond := by
  unfold processQueue
  split
  · exact ⟨rfl, rfl⟩
  · split
    · exact ⟨rfl, rfl⟩
    · exact processQueueLoop_config (totalWaiting s + 1) now { s with isProcessing := true }

theorem wakeLoop_events_extend (now : Nat) (s : LState) :
    ∃ t, (wakeLoop now s).events = s.events ++ t := by
  unfold wakeLoop
  split
  · exact processQueueLoop_events_extend (totalWaiting s + 1) now s
  · exact ⟨[], by simp⟩

theorem wakeLoop_config (now : Nat) (s : LState) :
    (wakeLoop now s).requestsPerSecond = s.requestsPerSecond ∧
    (wakeLoop now s).maxRequestsPerSecond = s.maxRequestsPerSecond := by
  unfold wakeLoop
  split
  · exact processQueueLoop_config (totalWaiting s + 1) now s
  · exact ⟨rfl, rfl⟩

theorem reduceLimitTemporary_cases (now : Nat) (d : Int) (s s' : LState)
    (h : reduceLimitTemporary now d s = .ok s') :
    s' = s ∨ s' = { s with
      reduceLimitTimestamp := now
      reduceTimerActive := true
      requestsPerSecond := max 1 (s.requestsPerSecond - s.reductionNumber) } := by
  unfold reduceLimitTemporary at h
  split at h
  · exact absurd h (by simp)
  · split at h
    · left
      injection h with h
      exact h.symm
    · right
      injection h with h
      exact h.symm

theorem execStep_events_extend (st : Step) (s : LState) :
    ∃ t, (execStep st s).events = s.events ++ t := by
  cases st with
  | reduce now d =>
    simp only [execStep]
    cases h : reduceLimitTemporary now d s with
    | ok s' =>
      rcases reduceLimitTemporary_cases now d s s' h with h' | h' <;>
        exact ⟨[], by subst h'; simp⟩
    | error e => exact ⟨[], by simp⟩
  | restore => exact ⟨[], by simp [execStep, restoreLimit]⟩
  | call o id now =>
    obtain ⟨t, ht⟩ := processQueue_events_extend now (enqueueByPriority o id s)
    refine ⟨t, ?_⟩
    show (processQueue now (enqueueByPriority o id s)).events = s.events ++ t
    rw [ht, enqueueByPriority_events]
  | resumeGranted rid now => exact ⟨[], by simp [execStep, grantContinuation]⟩
  | timeout id => exact ⟨[Event.reject id], rfl⟩
  | releaseCall rid now => exact ⟨[], by simp [execStep, releaseSlot]⟩
  | wake now => exact wakeLoop_events_extend now s
  | poke now => exact processQueue_events_extend now s

theorem execStep_max (st : Step) (s : LState) :
    (execStep st s).maxRequestsPerSecond = s.maxRequestsPerSecond := by
  cases st with
  | reduce now d =>
    simp only [execStep]
    cases h : reduceLimitTemporary now d s with
    | ok s' =>
      rcases reduceLimitTemporary_cases now d s s' h with h' | h' <;> subst h' <;> rfl
    | error e => rfl
  | restore => rfl
  | call o id now =>
    exact (processQueue_config now (enqueueByPriority o id s)).2.trans
      (enqueueByPriority_config o id s).2
  | resumeGranted rid now => rfl
  | timeout id => rfl
  | releaseCall rid now => rfl
  | wake now => exact (wakeLoop_config now s).2
  | poke now => exact (processQueue_config now s).2

theorem execStep_rate_ge_one (st : Step) (s : LState)
    (h1 : 1 ≤ s.requestsPerSecond) (h2 : 1 ≤ s.maxRequestsPerSecond) :
    1 ≤ (execStep st s).requestsPerSecond := by
  cases st with
  | reduce now d =>
    simp only [execStep]
    cases h : reduceLimitTemporary now d s with
    | ok s' =>
      rcases reduceLimitTemporary_cases now d s s' h with h' | h' <;> subst h'
      · exact h1
      · exact le_max_left 1 _
    | error e => exact h1
  | restore => exact h2
  | call o id now =>
    show 1 ≤ (processQueue now (enqueueByPriority o id s)).requestsPerSecond
    rw [(processQueue_config now (enqueueByPriority o id s)).1, (enqueueByPriority_config o id s).1]
    exact h1
  | resumeGranted rid now => exact h1
  | timeout id => exact h1
  | releaseCall rid now => exact h1
  | wake now =>
    show 1 ≤ (wakeLoop now s).requestsPerSecond
    rw [(wakeLoop_config now s).1]
    exact h1
  | poke now =>
    show 1 ≤ (processQueue now s).requestsPerSecond
    rw [(processQueue_config now s).1]
    exact h1

theorem execSteps_max : ∀ (steps : List Step) (s : LState),
    (execSteps steps s).maxRequestsPerSecond = s.maxRequestsPerSecond := by
  intro steps
  induction steps with
  | nil => intro s; rfl
  | cons st rest ih =>
    intro s
    rw [execSteps_cons, ih, execStep_max]

theorem execSteps_rate_ge_one : ∀ (steps : List Step) (s : LState),
    1 ≤ s.requestsPerSecond → 1 ≤ s.maxRequestsPerSecond →
    1 ≤ (execSteps steps s).requestsPerSecond := by
  intro steps
  induction steps with
  | nil => intro s h1 _; exact h1
  | cons st rest ih =>
    intro s h1 h2
    rw [execSteps_cons]
    exact ih _ (execStep_rate_ge_one st s h1 h2) ((execStep_max st s).symm ▸ h2)

theorem execSteps_rejected_stable : ∀ (steps : List Step) (s : LState) (id : Nat),
    firstSettle s.events id = .rejected →
    firstSettle (execSteps steps s).events id = .rejected := by
  intro steps
  induction steps with
  | nil => intro s id h; exact h
  | cons st rest ih =>
    intro s id h
    rw [execSteps_cons]
    refine ih _ id ?_
    obtain ⟨t, ht⟩ := execStep_events_extend st s
    rw [ht, firstSettle_append_of_ne _ _ _ (by rw [h]; simp)]
    exact h

theorem grantLoop_take_drop : ∀ (k : Nat) (s : LState),
    (grantLoop k s).events =
      s.events ++ ((s.requestsHigh ++ s.requestsNormal ++ s.requestsLow).take k).map Event.resolve ∧
    (grantLoop k s).requestsHigh ++ (grantLoop k s).requestsNormal ++ (grantLoop k s).requestsLow =
      (s.requestsHigh ++ s.requestsNormal ++ s.requestsLow).drop k := by
  intro k
  induction k with
  | zero => intro s; simp [grantLoop]
  | succ k ih =>
    intro s
    obtain ⟨mx, rn, rp, ts, ta, H, N, L, R, ip, ev⟩ := s
    cases H with
    | cons x t => simp [grantLoop, dequeueNext, ih]
    | nil =>
      cases N with
      | cons x t => simp [grantLoop, dequeueNext, ih]
      | nil =>
        cases L with
        | cons x t => simp [grantLoop, dequeueNext, ih]
        | nil => simp [grantLoop, dequeueNext]

theorem divRound_of_dvd (n d : Nat) (hd : 0 < d) (h : d ∣ n) : divRound n d = n / d := by
  unfold divRound
  rw [Nat.mod_eq_zero_of_dvd h]
  simp [hd]

theorem bitLenAux_le : ∀ (fuel n k : Nat), n < 2 ^ k → k ≤ fuel → bitLenAux fuel n ≤ k := by
  intro fuel
  induction fuel with
  | zero => intro n k _ _; exact Nat.zero_le k
  | succ fuel ih =>
    intro n k hn hk
    unfold bitLenAux
    by_cases h0 : n = 0
    · rw [if_pos h0]; exact Nat.zero_le k
    · rw [if_neg h0]
      have hk1 : 1 ≤ k := by
        rcases Nat.eq_zero_or_pos k with hk0 | hk0
        · subst hk0; simp at hn; omega
        · exact hk0
      have hn2 : n / 2 < 2 ^ (k - 1) := by
        rw [Nat.div_lt_iff_lt_mul (by norm_num)]
        have : 2 ^ (k - 1) * 2 = 2 ^ k := by
          rw [← pow_succ]
          congr 1
          omega
        omega
      have := ih (n / 2) (k - 1) hn2 (by omega)
      omega

theorem bitLen_le (n k : Nat) (hk : k ≤ 128) (hn : n < 2 ^ k) : bitLen n ≤ k :=
  bitLenAux_le 128 n k hn hk

theorem jsFloorMulDiv_dyadic (m p c u : Nat) (hp : p ≠ 0)
    (hsig : fl100Sig p = c * 2 ^ u) (hu : u ≤ 75) (hm53 : m * c < 2 ^ 53) :
    jsFloorMulDiv m p = m * c * 2 ^ u / 2 ^ fl100Exp p := by
  unfold jsFloorMulDiv prodShift
  rw [if_neg hp, hsig, ← mul_assoc]
  have hlt : m * c * 2 ^ u < 2 ^ (53 + u) := by
    rw [pow_add]
    exact (Nat.mul_lt_mul_right (pow_pos (by norm_num) u)).mpr hm53
  have hs : bitLen (m * c * 2 ^ u) - 53 ≤ u := by
    have := bitLen_le (m * c * 2 ^ u) (53 + u) (by omega) hlt
    omega
  have hdvd : 2 ^ (bitLen (m * c * 2 ^ u) - 53) ∣ m * c * 2 ^ u :=
    (pow_dvd_pow 2 hs).mul_left (m * c)
  rw [divRound_of_dvd _ _ (pow_pos (by norm_num) _) hdvd, Nat.div_mul_cancel hdvd]

/-! Scenario states used by the claim theorems. -/

/-- Limiter with `requestsPerSecond = 1` whose single slot is occupied: a first
request (id 9) was granted at time 2000 and its continuation has inserted its
`RunningRequest`; no release has happened. -/
def c6busy : LState := grantContinuation 9 2000 (requestSlotSync none 9 2000 (initState 1))

/-- Limiter with `requestsPerSecond = 1`, slot occupied since time 2000 by
request id 1; request id 2 arrived at time 2100, found no capacity, and is
waiting in the normal lane with the scheduler loop suspended at its 50ms
sleep. -/
def c2scenario : LState :=
  requestSlotSync none 2 2100 (grantContinuation 1 2000 (requestSlotSync none 1 2000 (initState 1)))

/-- Limiter with `requestsPerSecond = 1` and one running request (id 1,
granted at time 1000, not yet released). -/
def c3state : LState := grantContinuation 1 1000 (initState 1)

/-! Claim theorems. -/

/-- C1: evaluation of the code at the failing input.  The claim says that with
`maxRate = N` = 1 and no releases, a 2nd `requestSlot` call stays pending until
a pruned release or the stuck threshold frees a slot.  The code instead grants
both of two calls issued in the same synchronous tick immediately: the
`RunningRequest` bookkeeping of a grant runs in the granted caller's `await`
continuation (a microtask), so the second call's `processQueue` still sees an
empty running set and hands out a second slot.  After both calls the event
trace shows two grants while `requestsRunning` is still empty — no release was
pruned and no stuck slot was reclaimed, yet the rate-1 limiter granted 2
requests at the same millisecond. -/
theorem sameTick_requestSlots_overgrant :
    (requestSlotSync none 2 2000 (requestSlotSync none 1 2000 (initState 1))).events =
      [Event.resolve 1, Event.resolve 2] ∧
    (requestSlotSync none 2 2000 (requestSlotSync none 1 2000 (initState 1))).requestsRunning = [] ∧
    firstSettle (requestSlotSync none 2 2000 (requestSlotSync none 1 2000 (initState 1))).events 2 =
      .granted ∧
    (initState 1).requestsPerSecond = 1 := by
  decide

/-- C2 counterexample: when the timeout of a waiting request fires, the
request's promise is rejected but the `WaitingRequest` entry is NOT removed
from its lane — contrary to the claim, it is still present in the internal
queue afterward (the timer callback at lines 265-267 only calls `reject`). -/
theorem timedOut_request_stays_in_lane :
    firstSettle (fireTimeout 2 c2scenario).events 2 = .rejected ∧
    (fireTimeout 2 c2scenario).requestsNormal = [2] := by
  decide

/-- C2 (amended): a `requestSlot` whose timeout fires while it is still pending
fails with the Timeout rejection, and although its entry remains in its lane
(all three lanes are untouched by the timer), the request can never be granted
afterwards: under every further sequence of limiter steps its promise stays
rejected, because the scheduler's later `resolve` of the stale entry is a no-op
on the already-settled promise. -/
theorem timeout_rejects_and_never_grants (s : LState) (id : Nat)
    (hp : firstSettle s.events id = .pending) :
    firstSettle (fireTimeout id s).events id = .rejected ∧
    (fireTimeout id s).requestsHigh = s.requestsHigh ∧
    (fireTimeout id s).requestsNormal = s.requestsNormal ∧
    (fireTimeout id s).requestsLow = s.requestsLow ∧
    ∀ steps : List Step, firstSettle (execSteps steps (fireTimeout id s)).events id = .rejected := by
  have hrej : firstSettle (fireTimeout id s).events id = .rejected := by
    show firstSettle (s.events ++ [Event.reject id]) id = .rejected
    rw [firstSettle_append_of_pending _ _ _ hp]
    simp [firstSettle]
  exact ⟨hrej, rfl, rfl, rfl, fun steps => execSteps_rejected_stable steps _ id hrej⟩

/-- C2 witness: the amended theorem applied to the concrete scenario — request
id 2 times out while slot 1 is held, stays rejected, and is still rejected
after the sleeping loop wakes and the queue is poked again. -/
theorem timeout_rejects_and_never_grants_witness :
    firstSettle (fireTimeout 2 c2scenario).events 2 = .rejected ∧
    firstSettle (execSteps [Step.wake 3000, Step.poke 3100] (fireTimeout 2 c2scenario)).events 2 =
      .rejected :=
  ⟨(timeout_rejects_and_never_grants c2scenario 2 (by decide)).1,
   (timeout_rejects_and_never_grants c2scenario 2 (by decide)).2.2.2.2 [Step.wake 3000, Step.poke 3100]⟩

/-- C3 counterexample: invoking the release callback a second time is NOT a
no-op.  With one slot granted at time 1000 and released at time 5000, the
entry is pruned at time 6500 (completion older than 1000ms) and one slot is
available; if the callback is invoked again at time 6000, `endedAt` is
overwritten and the entry still counts against the budget at 6500, leaving 0
slots.  The two states also differ outright. -/
theorem double_release_changes_state :
    (getAvailableSlots 6500 (releaseSlot 1 5000 c3state)).1 = 1 ∧
    (getAvailableSlots 6500 (releaseSlot 1 6000 (releaseSlot 1 5000 c3state))).1 = 0 ∧
    releaseSlot 1 6000 (releaseSlot 1 5000 c3state) ≠ releaseSlot 1 5000 c3state := by
  decide

/-- C3 (amended): the release callback sets `endedAt` to the invocation time on
every call — last write wins.  Repeating the call with the same timestamp is a
no-op, a repeat at a later timestamp overwrites `endedAt` (postponing when the
slot ages out of the one-second window), and a release never removes entries
from the running set. -/
theorem release_last_write_wins (s : LState) (rid t1 t2 : Nat) :
    releaseSlot rid t2 (releaseSlot rid t1 s) = releaseSlot rid t2 s ∧
    releaseSlot rid t1 (releaseSlot rid t1 s) = releaseSlot rid t1 s ∧
    (releaseSlot rid t1 s).requestsRunning.length = s.requestsRunning.length := by
  have key : ∀ ta tb : Nat, releaseSlot rid tb (releaseSlot rid ta s) = releaseSlot rid tb s := by
    intro ta tb
    simp only [releaseSlot, List.map_map]
    congr 1
    apply List.map_congr_left
    intro r _
    obtain ⟨rr, sa, ea⟩ := r
    by_cases h : rr = rid <;> simp [h]
  exact ⟨key t1 t2, key t1 t1, by simp [releaseSlot]⟩

/-- C4 counterexample: with `maxRate = 1` the first effective reduction clamps
at 1, so after two calls inside the debounce window `currentRate` is 1, not
`maxRate - reductionAmount = 1 - 1 = 0` as the claim states. -/
theorem debounced_reduction_clamped_at_one :
    (execStep (.reduce 2500 300) (execStep (.reduce 2000 300) (initState 1))).requestsPerSecond = 1 ∧
    (initState 1).maxRequestsPerSecond - (initState 1).reductionNumber = 0 := by
  decide

/-- State after one effective `reduceLimitTemporary` call at time `t` on a
freshly constructed limiter with maximum rate `n`. -/
def reducedOnce (n t : Nat) : LState :=
  { initState n with
    reduceLimitTimestamp := t
    reduceTimerActive := true
    requestsPerSecond := max 1 (n - max 1 (n / 10)) }

/-- C4 (amended): two `reduceLimitTemporary` calls within 1000ms of each other
(measured from the recorded reduction timestamp) reduce the rate only once:
the second call returns successfully without changing any state (a no-op, not
an error), and `currentRate` after both calls is `max(1, maxRate -
reductionAmount)` — a single reduction, clamped at 1, not a double one. -/
theorem reduce_debounce_single_reduction (n t1 t2 : Nat) (d1 d2 : Int)
    (ht1 : 1000 ≤ t1) (hw : t2 - t1 < 1000) (hd1 : 0 < d1) (hd2 : 0 < d2) :
    reduceLimitTemporary t1 d1 (initState n) = .ok (reducedOnce n t1) ∧
    reduceLimitTemporary t2 d2 (reducedOnce n t1) = .ok (reducedOnce n t1) ∧
    (reducedOnce n t1).requestsPerSecond = max 1 (n - (initState n).reductionNumber) := by
  refine ⟨?_, ?_, rfl⟩
  · unfold reduceLimitTemporary
    have e1 : (initState n).reduceLimitTimestamp = 0 := rfl
    rw [e1, if_neg (by omega), if_neg (by omega)]
    rfl
  · unfold reduceLimitTemporary
    have e2 : (reducedOnce n t1).reduceLimitTimestamp = t1 := rfl
    rw [e2, if_neg (by omega), if_pos (by omega)]

/-- C4 witness: the amended theorem at `maxRate = 20`, reductions requested at
times 2000 and 2400. -/
theorem reduce_debounce_single_reduction_witness :
    reduceLimitTemporary 2000 300 (initState 20) = .ok (reducedOnce 20 2000) ∧
    reduceLimitTemporary 2400 300 (reducedOnce 20 2000) = .ok (reducedOnce 20 2000) ∧
    (reducedOnce 20 2000).requestsPerSecond = max 1 (20 - (initState 20).reductionNumber) :=
  reduce_debounce_single_reduction 20 2000 2400 300 300 (by decide) (by decide) (by decide) (by decide)

/-- C5: the scheduler's dequeue (`requestsHigh.shift() || requestsNormal.shift()
|| requestsLow.shift()`) returns the head of the highest-priority non-empty
lane — equivalently the head of the concatenation high ++ normal ++ low — and
is empty exactly when all three lanes are empty; the lanes left behind are the
tail of that concatenation.  Consequently the grant loop that dequeues `k`
requests resolves precisely the first `k` requests of high ++ normal ++ low in
order and leaves the rest: strict priority across lanes, FIFO within a lane. -/
theorem dequeue_priority_fifo :
    (∀ h n l : List Nat, dequeueNext h n l = none ↔ h = [] ∧ n = [] ∧ l = []) ∧
    (∀ h n l : List Nat, (dequeueNext h n l).map (fun r => r.1) = (h ++ n ++ l).head?) ∧
    (∀ h n l : List Nat,
      (dequeueNext h n l).map (fun r => r.2.1 ++ r.2.2.1 ++ r.2.2.2) = (h ++ n ++ l).tail?) ∧
    (∀ (k : Nat) (s : LState),
      (grantLoop k s).events =
        s.events ++ ((s.requestsHigh ++ s.requestsNormal ++ s.requestsLow).take k).map Event.resolve ∧
      (grantLoop k s).requestsHigh ++ (grantLoop k s).requestsNormal ++ (grantLoop k s).requestsLow =
        (s.requestsHigh ++ s.requestsNormal ++ s.requestsLow).drop k) := by
  refine ⟨?_, ?_, ?_, grantLoop_take_drop⟩
  · intro h n l
    cases h <;> cases n <;> cases l <;> simp [dequeueNext]
  · intro h n l
    cases h <;> cases n <;> cases l <;> simp [dequeueNext]
  · intro h n l
    cases h <;> cases n <;> cases l <;> simp [dequeueNext, List.tail?]

/-- C6 counterexample: a `requestSlot` call with the unrecognized priority
value "urgent", issued against a saturated limiter, does not fail at all —
its synchronous outcome is a success, the request is enqueued into the low
lane, and its promise is pending (queued), not rejected with InvalidArgument.
The source's `requestSlot` contains no priority validation and no synchronous
throw. -/
theorem invalid_priority_not_rejected :
    requestSlotSyncResult (some "urgent") 1 2001 c6busy =
      .ok (requestSlotSync (some "urgent") 1 2001 c6busy) ∧
    (requestSlotSync (some "urgent") 1 2001 c6busy).requestsLow = [1] ∧
    firstSettle (requestSlotSync (some "urgent") 1 2001 c6busy).events 1 = .pending :=
  ⟨rfl, by decide, by decide⟩

/-- C6 (amended): `requestSlot` performs no priority validation and never fails
synchronously: every call succeeds and enqueues the request — `'high'` and
`'normal'` into their lanes, and any other effective priority into the low
lane. -/
theorem requestSlot_accepts_any_priority (o : Option String) (id now : Nat) (s : LState) :
    requestSlotSyncResult o id now s = .ok (requestSlotSync o id now s) ∧
    totalWaiting (enqueueByPriority o id s) = totalWaiting s + 1 ∧
    (effectivePriority o ≠ "high" → effectivePriority o ≠ "normal" →
      (enqueueByPriority o id s).requestsLow = s.requestsLow ++ [id]) := by
  refine ⟨rfl, ?_, ?_⟩
  · unfold enqueueByPriority totalWaiting
    by_cases h1 : effectivePriority o = "high"
    · rw [if_pos h1]; simp; omega
    · rw [if_neg h1]
      by_cases h2 : effectivePriority o = "normal"
      · rw [if_pos h2]; simp; omega
      · rw [if_neg h2]; simp; omega
  · intro h1 h2
    unfold enqueueByPriority
    rw [if_neg h1, if_neg h2]

/-- C6 witness: the amended theorem at the concrete priority "urgent". -/
theorem requestSlot_accepts_any_priority_witness :
    requestSlotSyncResult (some "urgent") 7 0 (initState 1) =
      .ok (requestSlotSync (some "urgent") 7 0 (initState 1)) ∧
    (enqueueByPriority (some "urgent") 7 (initState 1)).requestsLow =
      (initState 1).requestsLow ++ [7] :=
  ⟨(requestSlot_accepts_any_priority (some "urgent") 7 0 (initState 1)).1,
   (requestSlot_accepts_any_priority (some "urgent") 7 0 (initState 1)).2.2 (by decide) (by decide)⟩

/-- C7 counterexample: the claimed formula
`max(1, floor(maxRate * fraction / 100))` fails twice against the
`CallLimiter` variant.  At `maxRate = 3` with the default fraction 25 the code
derives `Math.floor(3 * 0.25) = 0` (no `max(1, ...)` floor), where the formula
gives 1.  At `maxRate = 100`, fraction 29, the binary64 computation yields
`Math.floor(100 * 0.29) = 28` (the double nearest 29/100 lies below it), where
the formula gives 29 — the claimed integer formula does not even describe the
float arithmetic the code performs. -/
theorem reductionNumber_can_be_zero :
    CallLimiter.construct 3 25 = .ok ⟨3, 0, 3⟩ ∧
    (0 : Nat) ≠ max 1 (3 * 25 / 100) ∧
    CallLimiter.construct 100 29 = .ok ⟨100, 28, 100⟩ ∧
    (28 : Nat) ≠ max 1 (100 * 29 / 100) :=
  ⟨rfl, by decide, rfl, by decide⟩

/-- C7 (amended): the `CallLimiter` constructor derives `reductionNumber` by
the float computation `Math.floor(maxRate * (reductionFraction / 100))`, with
no lower floor of 1 and with double rounding that can land one below the
integer formula at fractions not exactly representable in binary64.  On the
float-exact part of the domain — fractions divisible by 25 (including the
default 25) and integral `maxRate < 2^51` — the code computes exactly
`floor(maxRate * fraction / 100)`, which can still be 0, and agrees with the
claimed `max(1, floor(maxRate * fraction / 100))` precisely when
`maxRate * fraction ≥ 100` (at the default 25: when `maxRate ≥ 4`). -/
theorem reductionNumber_matches_spec_when_large (m k : Nat) (hm : 0 < m)
    (hm51 : m < 2 ^ 51) (hk : k ≤ 4) :
    CallLimiter.construct (m : Int) (25 * k) = .ok ⟨m, m * (25 * k) / 100, m⟩ ∧
    (100 ≤ m * (25 * k) → m * (25 * k) / 100 = max 1 (m * (25 * k) / 100)) := by
  have hm53 : m < 9007199254740992 := by
    have h2 : (2 : Nat) ^ 51 = 2251799813685248 := by norm_num
    omega
  have hconstr : ∀ p : Nat, jsFloorMulDiv m p = m * p / 100 →
      CallLimiter.construct (m : Int) p = .ok ⟨m, m * p / 100, m⟩ := by
    intro p hjs
    unfold CallLimiter.construct
    rw [if_neg (by omega)]
    simp only [Int.toNat_natCast]
    rw [hjs]
  interval_cases k
  · refine ⟨hconstr 0 ?_, by omega⟩
    show jsFloorMulDiv m 0 = m * 0 / 100
    simp [jsFloorMulDiv]
  · refine ⟨hconstr 25 ?_, by intro h; omega⟩
    rw [jsFloorMulDiv_dyadic m 25 1 52 (by norm_num)
          (by decide) (by norm_num) (by norm_num; omega)]
    rw [show fl100Exp 25 = 54 from by decide]
    norm_num
    omega
  · refine ⟨hconstr 50 ?_, by intro h; omega⟩
    rw [jsFloorMulDiv_dyadic m 50 1 52 (by norm_num)
          (by decide) (by norm_num) (by norm_num; omega)]
    rw [show fl100Exp 50 = 53 from by decide]
    norm_num
    omega
  · refine ⟨hconstr 75 ?_, by intro h; omega⟩
    rw [jsFloorMulDiv_dyadic m 75 3 51 (by norm_num)
          (by decide) (by norm_num) (by norm_num; omega)]
    rw [show fl100Exp 75 = 53 from by decide]
    norm_num
    omega
  · refine ⟨hconstr 100 ?_, by intro h; omega⟩
    rw [jsFloorMulDiv_dyadic m 100 1 52 (by norm_num)
          (by decide) (by norm_num) (by norm_num; omega)]
    rw [show fl100Exp 100 = 52 from by decide]
    norm_num
    try omega

/-- C7 witness: the amended theorem at `maxRate = 8`, the default fraction
25. -/
theorem reductionNumber_matches_spec_when_large_witness :
    CallLimiter.construct ((8 : Nat) : Int) (25 * 1) = .ok ⟨8, 8 * (25 * 1) / 100, 8⟩ ∧
    (100 ≤ 8 * (25 * 1) → 8 * (25 * 1) / 100 = max 1 (8 * (25 * 1) / 100)) :=
  reductionNumber_matches_spec_when_large 8 1 (by decide) (by decide) (by decide)

/-- C8: the restoration callback scheduled by an effective
`reduceLimitTemporary` sets `currentRate` back to exactly `maxRequestsPerSecond`
and clears the timer, whatever sequence of limiter operations (any number of
reductions, grants, releases, wakes...) happened before it fired. -/
theorem restore_returns_to_maxRate (n : Nat) (steps : List Step) :
    (restoreLimit (execSteps steps (initState n))).requestsPerSecond = n ∧
    (restoreLimit (execSteps steps (initState n))).reduceTimerActive = false := by
  refine ⟨?_, rfl⟩
  show (execSteps steps (initState n)).maxRequestsPerSecond = n
  rw [execSteps_max]
  rfl

/-- C9: for every configured rate `n ≥ 1` and every sequence of limiter
operations, the effective rate `requestsPerSecond` never drops below 1: the
constructor starts at `n`, `reduceLimitTemporary` clamps with `max(1, ...)`,
and restoration resets to `n`. -/
theorem currentRate_ge_one (n : Nat) (steps : List Step) (hn : 1 ≤ n) :
    1 ≤ (execSteps steps (initState n)).requestsPerSecond :=
  execSteps_rate_ge_one steps (initState n) hn hn

/-- C9 witness: a concrete sequence with a reduction at rate 1, a restoration
and another reduction still leaves the rate at least 1. -/
theorem currentRate_ge_one_witness :
    1 ≤ (execSteps [Step.reduce 2000 500, Step.restore, Step.reduce 4000 500]
          (initState 1)).requestsPerSecond :=
  currentRate_ge_one 1 [Step.reduce 2000 500, Step.restore, Step.reduce 4000 500] (by decide)

/-- C10: a truthy priority value other than "high" and "normal" — any
misspelled or arbitrary non-empty string — raises no error and is silently
enqueued at the tail of the low-priority lane (and is therefore scheduled at
low priority by the dequeue order), while an absent or falsy (empty-string)
priority defaults to the normal lane. -/
theorem unknown_priority_goes_to_low_lane (p : String) (h0 : p ≠ "") (h1 : p ≠ "high")
    (h2 : p ≠ "normal") (id : Nat) (s : LState) :
    enqueueByPriority (some p) id s = { s with requestsLow := s.requestsLow ++ [id] } ∧
    enqueueByPriority none id s = { s with requestsNormal := s.requestsNormal ++ [id] } ∧
    enqueueByPriority (some "") id s = { s with requestsNormal := s.requestsNormal ++ [id] } := by
  refine ⟨?_, ?_, ?_⟩
  · have e : effectivePriority (some p) = p := by simp [effectivePriority, h0]
    unfold enqueueByPriority
    rw [e, if_neg h1, if_neg h2]
  · simp [enqueueByPriority, effectivePriority]
  · simp [enqueueByPriority, effectivePriority]

/-- C10 witness: the theorem at the misspelled priority "hihg". -/
theorem unknown_priority_goes_to_low_lane_witness :
    enqueueByPriority (some "hihg") 5 (initState 2) =
      { initState 2 with requestsLow := (initState 2).requestsLow ++ [5] } ∧
    enqueueByPriority none 5 (initState 2) =
      { initState 2 with requestsNormal := (initState 2).requestsNormal ++ [5] } ∧
    enqueueByPriority (some "") 5 (initState 2) =
      { initState 2 with requestsNormal := (initState 2).requestsNormal ++ [5] } :=
  unknown_priority_goes_to_low_lane "hihg" (by decide) (by decide) (by decide) 5 (initState 2)

end YToolkit
